import Mathlib

/-!
Verification of the dependency-injection container in `src/di.py`.

The embedding is a fuel-indexed interpreter over an explicit container
state.  Python classes are abstracted as `TypeKey`s; an `Env` assigns to
every type key the result of `typing.get_type_hints(cls.__init__)` (the
ordered list of parameter type keys) and the behaviour of `cls.__call__`
(construct normally, raise `TypeError`, or raise some other exception).
Constructed instances are `Value.obj id cls fields`: the `id` is drawn
from a monotone allocation counter in the state, so equality of values
models Python reference identity.  The state also carries a ghost `log`
of the classes successfully constructed, used to count constructions,
and a ghost `cycles` list recording each firing of the cycle check.

One detail of the source matters throughout: the bare
`raise CircularDependencyError` of line 104 instantiates the class with
zero arguments, while `CircularDependencyError.__init__` (line 16)
requires a `message` argument.  The instantiation itself therefore
raises `TypeError: __init__() missing 1 required positional argument`,
so the program never produces a `CircularDependencyError`: on a detected
cycle a `TypeError` escapes `__build`, is caught by `get`'s
`except TypeError` (line 59) and re-raised wrapped.  The embedding
models exactly that. -/

/-- Python type object used as a dictionary key (`cls` in the source). -/
abbrev TypeKey := Nat

/-- Behaviour of `cls.__call__(...)` for a class: construct normally,
raise a `TypeError` (e.g. a required untyped parameter is missing, or the
constructor body itself raises `TypeError`), or raise some other
exception from the constructor body. -/
inductive CtorRes where
  | ok : CtorRes
  | raiseTypeError : Nat → CtorRes
  | raiseOther : Nat → CtorRes
deriving DecidableEq, Repr

/-- Introspection data of one class: `hints` is the ordered list of
parameter type keys returned by `typing.get_type_hints(cls.__init__)`
(line 98 of `src/di.py`), `ctor` the behaviour of `cls.__call__`. -/
structure ClassDef where
  hints : List TypeKey
  ctor : CtorRes
deriving DecidableEq, Repr

/-- The ambient class registry: every type key is a Python class. -/
abbrev Env := TypeKey → ClassDef

/-- A Python object: allocation id, class, and the argument values the
constructor received.  Equal values have equal ids, so value equality is
reference identity under the fresh-allocation discipline. -/
inductive Value where
  | obj : Nat → TypeKey → List Value → Value

/-- Message payload of a `TypeError`: the original exception's payload;
or the message of the `TypeError` raised when line 104's bare
`raise CircularDependencyError` fails to instantiate the class (its
`__init__` requires a `message` argument that the bare raise does not
supply); or the wrapped message of line 60 of `src/di.py`, which names
the class `get` was called on. -/
inductive TMsg where
  | raw : Nat → TMsg
  | missingMessageArg : TMsg
  | couldNotBuild : TypeKey → TMsg
deriving DecidableEq, Repr

/-- Exceptions that can escape `get`.  The `CircularDependencyError`
class exists in the source (lines 15-17) but is never successfully
instantiated (the bare raise of line 104 degenerates to a `TypeError`),
so the `circularDependencyError` kind is provably never produced;
`fuelOut` is the fuel-exhaustion artefact of the bounded interpreter
(never raised by the Python code itself). -/
inductive Err where
  | circularDependencyError : Err
  | typeError : TMsg → Err
  | otherError : Nat → Err
  | fuelOut : Err
deriving DecidableEq, Repr

/-- Lookup in an insertion-ordered dictionary. -/
def dictLookup : List (TypeKey × Value) → TypeKey → Option Value
  | [], _ => none
  | (k, v) :: rest, key => if k = key then some v else dictLookup rest key

/-- Python dictionary assignment `d[key] = v`: overwrite in place or
append. -/
def dictInsert : List (TypeKey × Value) → TypeKey → Value → List (TypeKey × Value)
  | [], key, v => [(key, v)]
  | (k, w) :: rest, key, v =>
      if k = key then (key, v) :: rest else (k, w) :: dictInsert rest key v

/-- Python `del d[key]` on a key list (keys are unique in a dict). -/
def delKey : List TypeKey → TypeKey → List TypeKey
  | [], _ => []
  | k :: rest, key => if k = key then rest else k :: delKey rest key

/-- State of a `DependencyContainer`: the instance cache
`self.__container`, the in-progress dictionary `self.build_stack` (only
its key set matters), the allocation counter for fresh object ids, a
ghost log of the classes successfully constructed so far, and a ghost
list of the classes at which the cycle check of line 103 fired. -/
structure St where
  container : List (TypeKey × Value)
  build_stack : List TypeKey
  fresh : Nat
  log : List TypeKey
  cycles : List TypeKey

namespace DependencyContainer

/-- Method `set` (lines 65-82): unconditionally insert or overwrite the
cache entry for `cls_name`. -/
def set (st : St) (cls_name : TypeKey) (set_instance : Value) : St :=
  { st with container := dictInsert st.container cls_name set_instance }

/-- Invocation `cls.__call__(**params)` (lines 100 and 113): on success
allocate a fresh object holding the argument values and record the
construction in the ghost log; otherwise raise what the constructor
raises. -/
def callCtor (env : Env) (st : St) (cls : TypeKey) (args : List Value) :
    Except Err Value × St :=
  match (env cls).ctor with
  | .ok => (.ok (.obj st.fresh cls args),
      { st with fresh := st.fresh + 1, log := st.log ++ [cls] })
  | .raiseTypeError c => (.error (.typeError (.raw c)), st)
  | .raiseOther c => (.error (.otherError c), st)

/-- The loop of lines 108-109: resolve each parameter type in order with
the recursive `self.get` (passed in as `g`), stopping at the first
exception. -/
def resolveAll (g : St → TypeKey → Except Err Value × St) :
    St → List TypeKey → Except Err (List Value) × St
  | st, [] => (.ok [], st)
  | st, t :: ts =>
    match g st t with
    | (.ok v, st1) =>
      (match resolveAll g st1 ts with
       | (.ok vs, st2) => (.ok (v :: vs), st2)
       | (.error e, st2) => (.error e, st2))
    | (.error e, st1) => (.error e, st1)

/-- Method `__build` (lines 84-113), with the recursive `self.get` passed
in as `g`.  Empty hints short-circuit to a zero-argument call (lines
99-100).  Otherwise the cycle check of line 103 fires for a marked
class; the bare `raise CircularDependencyError` of line 104 then fails
to instantiate the class (`__init__` requires a `message` argument), so
what is actually raised there is a `TypeError` — the ghost `cycles`
field records the firing.  Then the in-progress marking (line 106), the
parameter loop, the success-path-only removal of the marker (line 112 —
errors from the loop skip it), and the construction call (line 113). -/
def build (env : Env) (g : St → TypeKey → Except Err Value × St)
    (st : St) (cls : TypeKey) : Except Err Value × St :=
  match (env cls).hints with
  | [] => callCtor env st cls []
  | t :: ts =>
    if cls ∈ st.build_stack then
      (.error (.typeError .missingMessageArg), { st with cycles := st.cycles ++ [cls] })
    else
      match resolveAll g { st with build_stack := cls :: st.build_stack } (t :: ts) with
      | (.ok vals, st2) =>
          callCtor env { st2 with build_stack := delKey st2.build_stack cls } cls vals
      | (.error e, st2) => (.error e, st2)

/-- Method `get` (lines 39-63) with the recursive `self.get` passed in as
`g`: cache hit returns immediately; on a miss, build, re-raising any
`TypeError` wrapped with a message naming `cls` (lines 59-62) and
letting every other exception propagate unchanged; on success `set` the
result and return `self.get(cls)` (line 63). -/
def getStep (env : Env) (g : St → TypeKey → Except Err Value × St)
    (st : St) (cls : TypeKey) : Except Err Value × St :=
  match dictLookup st.container cls with
  | some v => (.ok v, st)
  | none =>
    match build env g st cls with
    | (.ok v, st1) => g (set st1 cls v) cls
    | (.error (.typeError _), st1) =>
        (.error (.typeError (.couldNotBuild cls)), st1)
    | (.error e, st1) => (.error e, st1)

/-- Method `get`, closed up with a fuel bound on recursion depth (the
Python recursion is unbounded; `Err.fuelOut` marks a truncated run and
is never produced with sufficient fuel). -/
def get (env : Env) : Nat → St → TypeKey → Except Err Value × St :=
  fun fuel =>
    Nat.rec (fun st _ => (.error .fuelOut, st)) (fun _ ih => getStep env ih) fuel

end DependencyContainer

/-- A container fresh out of `__init__` (lines 30-37): empty cache, empty
build stack. -/
def st0 : St := ⟨[], [], 0, [], []⟩

/-- Diamond graph of claim C7: class 0 (A) needs 1 (B) and 2 (C); B and C
each need 3 (D); D is a leaf. -/
def envD : Env := fun k =>
  if k = 0 then ⟨[1, 2], .ok⟩
  else if k = 1 then ⟨[3], .ok⟩
  else if k = 2 then ⟨[3], .ok⟩
  else ⟨[], .ok⟩

/-- Two-cycle of claims C1 and C2: class 0 needs 1 and class 1 needs 0. -/
def env2 : Env := fun k =>
  if k = 0 then ⟨[1], .ok⟩
  else if k = 1 then ⟨[0], .ok⟩
  else ⟨[], .ok⟩

/-- Graph for claim C3: class 0 needs class 1; class 1 needs the leaf
class 2, resolves it successfully, and then its constructor body raises
`TypeError 7` during its own execution. -/
def envC : Env := fun k =>
  if k = 0 then ⟨[1], .ok⟩
  else if k = 1 then ⟨[2], .raiseTypeError 7⟩
  else ⟨[], .ok⟩

/-- Graph whose only class 0 constructor raises a non-`TypeError`
exception. -/
def envO : Env := fun k =>
  if k = 0 then ⟨[], .raiseOther 13⟩
  else ⟨[], .ok⟩

/-- Graph for claim C10: class 0 declares one parameter of type 1, and
class 1 (think `int` or `list`) yields no type hints on introspection. -/
def envL : Env := fun k =>
  if k = 0 then ⟨[1], .ok⟩
  else ⟨[], .ok⟩

namespace DependencyContainer

/-- A resolver `g` never removes or overwrites an existing cache entry. -/
def Preserves (g : St → TypeKey → Except Err Value × St) : Prop :=
  ∀ st t r st', g st t = (r, st') →
    ∀ K v, dictLookup st.container K = some v → dictLookup st'.container K = some v

/-- A type key that is marked in-progress, is uncached and has a
non-empty hint list stays marked and uncached across a resolver call:
any nested attempt to build it trips the cycle check first. -/
def StackInv (env : Env) (g : St → TypeKey → Except Err Value × St) : Prop :=
  ∀ st t r st', g st t = (r, st') →
    ∀ X, X ∈ st.build_stack → (env X).hints ≠ [] → dictLookup st.container X = none →
      X ∈ st'.build_stack ∧ dictLookup st'.container X = none

/-- What must be true for an error of this kind to escape into final
state `stF`: a `TypeError` (whatever its message) requires either some
constructor that raises `TypeError`, or a firing of the cycle check
(whose failed bare raise degenerates to `TypeError`, recorded in the
ghost `cycles` field); a non-`TypeError` constructor failure keeps its
original payload; a `CircularDependencyError` can never escape. -/
def ErrOriginAt (env : Env) (stF : St) : Err → Prop
  | .typeError _ =>
      (∃ c k, (env c).ctor = .raiseTypeError k) ∨ stF.cycles ≠ []
  | .otherError code => ∃ c, (env c).ctor = .raiseOther code
  | .circularDependencyError => False
  | .fuelOut => True

/-- A resolver whose escaping errors all have an accounted origin. -/
def OriginSound (env : Env) (g : St → TypeKey → Except Err Value × St) : Prop :=
  ∀ st t e st', g st t = (.error e, st') → ErrOriginAt env st' e

end DependencyContainer

namespace DependencyContainer

/-! ### Small equation lemmas for the interpreter and the dictionaries -/

theorem get_zero (env : Env) (st : St) (cls : TypeKey) :
    get env 0 st cls = (.error .fuelOut, st) := rfl

theorem get_succ (env : Env) (fuel : Nat) (st : St) (cls : TypeKey) :
    get env (fuel + 1) st cls = getStep env (get env fuel) st cls := rfl

theorem getStep_hit (env : Env) (g : St → TypeKey → Except Err Value × St)
    (st : St) (cls : TypeKey) (v : Value)
    (hv : dictLookup st.container cls = some v) :
    getStep env g st cls = (.ok v, st) := by
  unfold getStep
  rw [hv]

theorem getStep_miss_ok (env : Env) (g : St → TypeKey → Except Err Value × St)
    (st st1 : St) (cls : TypeKey) (v : Value)
    (h : dictLookup st.container cls = none)
    (hb : build env g st cls = (.ok v, st1)) :
    getStep env g st cls = g (set st1 cls v) cls := by
  unfold getStep
  rw [h, hb]

theorem getStep_miss_typeError (env : Env) (g : St → TypeKey → Except Err Value × St)
    (st st1 : St) (cls : TypeKey) (m : TMsg)
    (h : dictLookup st.container cls = none)
    (hb : build env g st cls = (.error (.typeError m), st1)) :
    getStep env g st cls = (.error (.typeError (.couldNotBuild cls)), st1) := by
  unfold getStep
  rw [h, hb]

theorem getStep_miss_otherError (env : Env) (g : St → TypeKey → Except Err Value × St)
    (st st1 : St) (cls : TypeKey) (c : Nat)
    (h : dictLookup st.container cls = none)
    (hb : build env g st cls = (.error (.otherError c), st1)) :
    getStep env g st cls = (.error (.otherError c), st1) := by
  unfold getStep
  rw [h, hb]

theorem getStep_miss_fuelOut (env : Env) (g : St → TypeKey → Except Err Value × St)
    (st st1 : St) (cls : TypeKey)
    (h : dictLookup st.container cls = none)
    (hb : build env g st cls = (.error .fuelOut, st1)) :
    getStep env g st cls = (.error .fuelOut, st1) := by
  unfold getStep
  rw [h, hb]

theorem build_leaf (env : Env) (g : St → TypeKey → Except Err Value × St)
    (st : St) (cls : TypeKey) (hh : (env cls).hints = []) :
    build env g st cls = callCtor env st cls [] := by
  unfold build
  rw [hh]

theorem build_inStack (env : Env) (g : St → TypeKey → Except Err Value × St)
    (st : St) (cls t : TypeKey) (ts : List TypeKey)
    (hh : (env cls).hints = t :: ts) (hs : cls ∈ st.build_stack) :
    build env g st cls =
      (.error (.typeError .missingMessageArg),
       { st with cycles := st.cycles ++ [cls] }) := by
  unfold build
  rw [hh]
  simp [hs]

theorem build_step_ok (env : Env) (g : St → TypeKey → Except Err Value × St)
    (st st2 : St) (cls t : TypeKey) (ts : List TypeKey) (vals : List Value)
    (hh : (env cls).hints = t :: ts) (hs : cls ∉ st.build_stack)
    (hr : resolveAll g { st with build_stack := cls :: st.build_stack } (t :: ts) =
      (.ok vals, st2)) :
    build env g st cls =
      callCtor env { st2 with build_stack := delKey st2.build_stack cls } cls vals := by
  unfold build
  rw [hh]
  simp only [if_neg hs]
  rw [hr]

theorem build_step_err (env : Env) (g : St → TypeKey → Except Err Value × St)
    (st st2 : St) (cls t : TypeKey) (ts : List TypeKey) (e : Err)
    (hh : (env cls).hints = t :: ts) (hs : cls ∉ st.build_stack)
    (hr : resolveAll g { st with build_stack := cls :: st.build_stack } (t :: ts) =
      (.error e, st2)) :
    build env g st cls = (.error e, st2) := by
  unfold build
  rw [hh]
  simp only [if_neg hs]
  rw [hr]

theorem resolveAll_nil (g : St → TypeKey → Except Err Value × St) (st : St) :
    resolveAll g st [] = (.ok [], st) := rfl

theorem resolveAll_cons_ok (g : St → TypeKey → Except Err Value × St)
    (st st1 st2 : St) (t : TypeKey) (ts : List TypeKey) (v : Value) (vs : List Value)
    (h1 : g st t = (.ok v, st1)) (h2 : resolveAll g st1 ts = (.ok vs, st2)) :
    resolveAll g st (t :: ts) = (.ok (v :: vs), st2) := by
  unfold resolveAll
  rw [h1]
  dsimp only
  rw [h2]

theorem resolveAll_cons_tailErr (g : St → TypeKey → Except Err Value × St)
    (st st1 st2 : St) (t : TypeKey) (ts : List TypeKey) (v : Value) (e : Err)
    (h1 : g st t = (.ok v, st1)) (h2 : resolveAll g st1 ts = (.error e, st2)) :
    resolveAll g st (t :: ts) = (.error e, st2) := by
  unfold resolveAll
  rw [h1]
  dsimp only
  rw [h2]

theorem resolveAll_cons_headErr (g : St → TypeKey → Except Err Value × St)
    (st st1 : St) (t : TypeKey) (ts : List TypeKey) (e : Err)
    (h1 : g st t = (.error e, st1)) :
    resolveAll g st (t :: ts) = (.error e, st1) := by
  unfold resolveAll
  rw [h1]

theorem callCtor_ok (env : Env) (st : St) (cls : TypeKey) (args : List Value)
    (hc : (env cls).ctor = .ok) :
    callCtor env st cls args = (.ok (.obj st.fresh cls args),
      { st with fresh := st.fresh + 1, log := st.log ++ [cls] }) := by
  unfold callCtor
  rw [hc]

theorem callCtor_typeError (env : Env) (st : St) (cls : TypeKey) (args : List Value) (c : Nat)
    (hc : (env cls).ctor = .raiseTypeError c) :
    callCtor env st cls args = (.error (.typeError (.raw c)), st) := by
  unfold callCtor
  rw [hc]

theorem callCtor_otherError (env : Env) (st : St) (cls : TypeKey) (args : List Value) (c : Nat)
    (hc : (env cls).ctor = .raiseOther c) :
    callCtor env st cls args = (.error (.otherError c), st) := by
  unfold callCtor
  rw [hc]

theorem dictLookup_insert_self (d : List (TypeKey × Value)) (k : TypeKey) (v : Value) :
    dictLookup (dictInsert d k v) k = some v := by
  induction d with
  | nil => simp [dictInsert, dictLookup]
  | cons kv rest ih =>
      obtain ⟨k1, v1⟩ := kv
      by_cases h : k1 = k
      · simp [dictInsert, h, dictLookup]
      · simp [dictInsert, h, dictLookup, ih]

theorem dictLookup_insert_ne (d : List (TypeKey × Value)) (k key : TypeKey) (v : Value)
    (h : key ≠ k) :
    dictLookup (dictInsert d k v) key = dictLookup d key := by
  induction d with
  | nil => simp [dictInsert, dictLookup, Ne.symm h]
  | cons kv rest ih =>
      obtain ⟨k1, v1⟩ := kv
      by_cases h1 : k1 = k
      · subst h1
        simp [dictInsert, dictLookup, Ne.symm h]
      · simp only [dictInsert, if_neg h1, dictLookup]
        by_cases h2 : k1 = key
        · simp [h2]
        · simp [h2, ih]

theorem delKey_cons_self (s : List TypeKey) (k : TypeKey) : delKey (k :: s) k = s := by
  simp [delKey]

theorem mem_delKey (s : List TypeKey) (x k : TypeKey) (hx : x ∈ s) (h : x ≠ k) :
    x ∈ delKey s k := by
  induction s with
  | nil => cases hx
  | cons a s ih =>
      rcases List.mem_cons.mp hx with h1 | h1
      · subst h1
        simp [delKey, if_neg (fun hk => h hk)]
      · by_cases h2 : a = k
        · simpa [delKey, h2] using h1
        · simp only [delKey, if_neg h2, List.mem_cons]
          exact Or.inr (ih h1)

theorem set_container (st : St) (cls : TypeKey) (v : Value) :
    (set st cls v).container = dictInsert st.container cls v := rfl

theorem get_hit (env : Env) (fuel : Nat) (st : St) (cls : TypeKey) (v : Value)
    (hv : dictLookup st.container cls = some v) :
    get env (fuel + 1) st cls = (.ok v, st) := by
  rw [get_succ]
  exact getStep_hit env (get env fuel) st cls v hv

/-! ### Cache entries present before a call survive it unchanged -/

theorem callCtor_preserves (env : Env) (st st' : St) (cls : TypeKey)
    (args : List Value) (r : Except Err Value)
    (h : callCtor env st cls args = (r, st')) : st'.container = st.container := by
  unfold callCtor at h
  split at h <;> (injection h with h1 h2; subst h2; rfl)

theorem resolveAll_preserves (g : St → TypeKey → Except Err Value × St)
    (hg : Preserves g) :
    ∀ (ts : List TypeKey) (st : St) (r : Except Err (List Value)) (st' : St),
      resolveAll g st ts = (r, st') →
      ∀ K v, dictLookup st.container K = some v → dictLookup st'.container K = some v := by
  intro ts
  induction ts with
  | nil =>
      intro st r st' h K v hv
      unfold resolveAll at h
      injection h with h1 h2
      subst h2
      exact hv
  | cons t ts ih =>
      intro st r st' h K v hv
      unfold resolveAll at h
      split at h
      next v1 st1 heq =>
        split at h
        next vs st2 heq2 =>
          injection h with h1 h2
          subst h2
          exact ih st1 _ st2 heq2 K v (hg st t _ st1 heq K v hv)
        next e st2 heq2 =>
          injection h with h1 h2
          subst h2
          exact ih st1 _ st2 heq2 K v (hg st t _ st1 heq K v hv)
      next e st1 heq =>
        injection h with h1 h2
        subst h2
        exact hg st t _ st1 heq K v hv

theorem build_preserves (env : Env) (g : St → TypeKey → Except Err Value × St)
    (hg : Preserves g) (st : St) (cls : TypeKey) (r : Except Err Value) (st' : St)
    (h : build env g st cls = (r, st')) :
    ∀ K v, dictLookup st.container K = some v → dictLookup st'.container K = some v := by
  intro K v hv
  unfold build at h
  split at h
  · rw [callCtor_preserves env st st' cls [] r h]
    exact hv
  next t ts hh =>
    split at h
    · injection h with h1 h2
      subst h2
      exact hv
    · split at h
      next vals st2 heq =>
        rw [callCtor_preserves env _ st' cls vals r h]
        exact resolveAll_preserves g hg (t :: ts) _ _ st2 heq K v hv
      next e st2 heq =>
        injection h with h1 h2
        subst h2
        exact resolveAll_preserves g hg (t :: ts) _ _ st2 heq K v hv

theorem getStep_preserves (env : Env) (g : St → TypeKey → Except Err Value × St)
    (hg : Preserves g) : Preserves (getStep env g) := by
  intro st cls r st' h K v hv
  unfold getStep at h
  split at h
  next w hw =>
    injection h with h1 h2
    subst h2
    exact hv
  next hmiss =>
    split at h
    next w st1 heq =>
      have hv1 : dictLookup st1.container K = some v :=
        build_preserves env g hg st cls _ st1 heq K v hv
      have hKcls : K ≠ cls := by
        intro hkc
        subst hkc
        rw [hmiss] at hv
        cases hv
      have hv2 : dictLookup (set st1 cls w).container K = some v := by
        rw [set_container, dictLookup_insert_ne _ _ _ _ hKcls]
        exact hv1
      exact hg _ cls r st' h K v hv2
    next m st1 heq =>
      injection h with h1 h2
      subst h2
      exact build_preserves env g hg st cls _ st1 heq K v hv
    next e st1 hne heq =>
      injection h with h1 h2
      subst h2
      exact build_preserves env g hg st cls _ st1 heq K v hv

theorem get_preserves (env : Env) : ∀ fuel : Nat, Preserves (get env fuel) := by
  intro fuel
  induction fuel with
  | zero =>
      intro st t r st' h K v hv
      rw [get_zero] at h
      injection h with h1 h2
      subst h2
      exact hv
  | succ fuel ih =>
      intro st t r st' h K v hv
      rw [get_succ] at h
      exact getStep_preserves env (get env fuel) ih st t r st' h K v hv

/-! ### The in-progress marker protects an uncached type from being cached -/

theorem callCtor_stack (env : Env) (st st' : St) (cls : TypeKey)
    (args : List Value) (r : Except Err Value)
    (h : callCtor env st cls args = (r, st')) : st'.build_stack = st.build_stack := by
  unfold callCtor at h
  split at h <;> (injection h with h1 h2; subst h2; rfl)

theorem resolveAll_inv (env : Env) (g : St → TypeKey → Except Err Value × St)
    (hg : StackInv env g) :
    ∀ (ts : List TypeKey) (st : St) (r : Except Err (List Value)) (st' : St),
      resolveAll g st ts = (r, st') →
      ∀ X, X ∈ st.build_stack → (env X).hints ≠ [] → dictLookup st.container X = none →
        X ∈ st'.build_stack ∧ dictLookup st'.container X = none := by
  intro ts
  induction ts with
  | nil =>
      intro st r st' h X hX hXh hXc
      unfold resolveAll at h
      injection h with h1 h2
      subst h2
      exact ⟨hX, hXc⟩
  | cons t ts ih =>
      intro st r st' h X hX hXh hXc
      unfold resolveAll at h
      split at h
      next v1 st1 heq =>
        have hmid := hg st t _ st1 heq X hX hXh hXc
        split at h
        next vs st2 heq2 =>
          injection h with h1 h2
          subst h2
          exact ih st1 _ st2 heq2 X hmid.1 hXh hmid.2
        next e st2 heq2 =>
          injection h with h1 h2
          subst h2
          exact ih st1 _ st2 heq2 X hmid.1 hXh hmid.2
      next e st1 heq =>
        injection h with h1 h2
        subst h2
        exact hg st t _ st1 heq X hX hXh hXc

theorem build_inv (env : Env) (g : St → TypeKey → Except Err Value × St)
    (hg : StackInv env g) (st : St) (cls : TypeKey) (r : Except Err Value) (st' : St)
    (h : build env g st cls = (r, st')) :
    ∀ X, X ∈ st.build_stack → (env X).hints ≠ [] → dictLookup st.container X = none →
      X ∈ st'.build_stack ∧ dictLookup st'.container X = none := by
  intro X hX hXh hXc
  unfold build at h
  split at h
  · constructor
    · rw [callCtor_stack env st st' cls [] r h]
      exact hX
    · rw [callCtor_preserves env st st' cls [] r h]
      exact hXc
  next t ts hh =>
    split at h
    · injection h with h1 h2
      subst h2
      exact ⟨hX, hXc⟩
    next hs =>
      have hXcls : X ≠ cls := fun he => hs (he ▸ hX)
      split at h
      next vals st2 heq =>
        have hmid := resolveAll_inv env g hg (t :: ts) _ _ st2 heq X
          (List.mem_cons_of_mem cls hX) hXh hXc
        constructor
        · rw [callCtor_stack env _ st' cls vals r h]
          exact mem_delKey st2.build_stack X cls hmid.1 hXcls
        · rw [callCtor_preserves env _ st' cls vals r h]
          exact hmid.2
      next e st2 heq =>
        injection h with h1 h2
        subst h2
        exact resolveAll_inv env g hg (t :: ts) _ _ st2 heq X
          (List.mem_cons_of_mem cls hX) hXh hXc

theorem getStep_inv (env : Env) (g : St → TypeKey → Except Err Value × St)
    (hg : StackInv env g) : StackInv env (getStep env g) := by
  intro st cls r st' h X hX hXh hXc
  unfold getStep at h
  split at h
  next w hw =>
      injection h with h1 h2
      subst h2
      exact ⟨hX, hXc⟩
  next hmiss =>
    split at h
    next w st1 heq =>
      have hXcls : X ≠ cls := by
        intro he
        subst he
        rcases hne : (env X).hints with _ | ⟨t, ts⟩
        · exact hXh hne
        · rw [build_inStack env g st X t ts hne hX] at heq
          simp at heq
      have h1 := build_inv env g hg st cls _ st1 heq X hX hXh hXc
      have h2 : dictLookup (set st1 cls w).container X = none := by
        rw [set_container, dictLookup_insert_ne _ _ _ _ hXcls]
        exact h1.2
      exact hg _ cls r st' h X h1.1 hXh h2
    next m st1 heq =>
      injection h with h1 h2
      subst h2
      exact build_inv env g hg st cls _ st1 heq X hX hXh hXc
    next e st1 hne heq =>
      injection h with h1 h2
      subst h2
      exact build_inv env g hg st cls _ st1 heq X hX hXh hXc

theorem get_inv (env : Env) : ∀ fuel : Nat, StackInv env (get env fuel) := by
  intro fuel
  induction fuel with
  | zero =>
      intro st t r st' h X hX hXh hXc
      rw [get_zero] at h
      injection h with h1 h2
      subst h2
      exact ⟨hX, hXc⟩
  | succ fuel ih =>
      intro st t r st' h
      rw [get_succ] at h
      exact getStep_inv env (get env fuel) ih st t r st' h

/-- A failed build leaves the requested type uncached. -/
theorem build_err_uncached (env : Env) (g : St → TypeKey → Except Err Value × St)
    (hg : StackInv env g) (st : St) (cls : TypeKey) (e : Err) (st' : St)
    (h : build env g st cls = (.error e, st'))
    (hc : dictLookup st.container cls = none) :
    dictLookup st'.container cls = none := by
  unfold build at h
  split at h
  · rw [callCtor_preserves env st st' cls [] _ h]
    exact hc
  next t ts hh =>
    split at h
    · injection h with h1 h2
      subst h2
      exact hc
    next hs =>
      split at h
      next vals st2 heq =>
        have hmid := resolveAll_inv env g hg (t :: ts) _ _ st2 heq cls
          (List.mem_cons_self cls st.build_stack) (by rw [hh]; exact List.cons_ne_nil t ts) hc
        rw [callCtor_preserves env _ st' cls vals _ h]
        exact hmid.2
      next e1 st2 heq =>
        injection h with h1 h2
        subst h2
        exact (resolveAll_inv env g hg (t :: ts) _ _ st2 heq cls
          (List.mem_cons_self cls st.build_stack) (by rw [hh]; exact List.cons_ne_nil t ts) hc).2

/-! ### A successful get leaves the requested type cached with its result -/

theorem get_ok_cached (env : Env) :
    ∀ (fuel : Nat) (st : St) (T : TypeKey) (v : Value) (st' : St),
      get env fuel st T = (.ok v, st') → dictLookup st'.container T = some v := by
  intro fuel
  induction fuel with
  | zero =>
      intro st T v st' h
      rw [get_zero] at h
      simp at h
  | succ fuel ih =>
      intro st T v st' h
      rw [get_succ] at h
      unfold getStep at h
      split at h
      next w hw =>
        injection h with h1 h2
        injection h1 with h1
        subst h1
        subst h2
        exact hw
      next hmiss =>
        split at h
        next w st1 heq => exact ih _ T v st' h
        next m st1 heq => simp at h
        next e st1 hne heq => simp at h

/-! ### Provenance of escaping errors -/

theorem callCtor_origin (env : Env) (st st' : St) (cls : TypeKey)
    (args : List Value) (e : Err)
    (h : callCtor env st cls args = (.error e, st')) : ErrOriginAt env st' e := by
  unfold callCtor at h
  split at h
  · simp at h
  next c hc =>
    injection h with h1 h2
    injection h1 with h1
    subst h1
    exact Or.inl ⟨cls, c, hc⟩
  next c hc =>
    injection h with h1 h2
    injection h1 with h1
    subst h1
    exact ⟨cls, hc⟩

theorem resolveAll_origin (env : Env) (g : St → TypeKey → Except Err Value × St)
    (hg : OriginSound env g) :
    ∀ (ts : List TypeKey) (st : St) (e : Err) (st' : St),
      resolveAll g st ts = (.error e, st') → ErrOriginAt env st' e := by
  intro ts
  induction ts with
  | nil =>
      intro st e st' h
      unfold resolveAll at h
      simp at h
  | cons t ts ih =>
      intro st e st' h
      unfold resolveAll at h
      split at h
      next v1 st1 heq =>
        split at h
        next vs st2 heq2 => simp at h
        next e1 st2 heq2 =>
          injection h with h1 h2
          injection h1 with h1
          subst h1
          subst h2
          exact ih st1 e1 st2 heq2
      next e1 st1 heq =>
        injection h with h1 h2
        injection h1 with h1
        subst h1
        subst h2
        exact hg st t e1 st1 heq

theorem build_origin (env : Env) (g : St → TypeKey → Except Err Value × St)
    (hg : OriginSound env g) (st : St) (cls : TypeKey) (e : Err) (st' : St)
    (h : build env g st cls = (.error e, st')) : ErrOriginAt env st' e := by
  unfold build at h
  split at h
  · exact callCtor_origin env st st' cls [] e h
  next t ts hh =>
    split at h
    · injection h with h1 h2
      injection h1 with h1
      subst h1
      subst h2
      exact Or.inr (by simp)
    next hs =>
      split at h
      next vals st2 heq => exact callCtor_origin env _ st' cls vals e h
      next e1 st2 heq =>
        injection h with h1 h2
        injection h1 with h1
        subst h1
        subst h2
        exact resolveAll_origin env g hg (t :: ts) _ e1 st2 heq

theorem getStep_origin (env : Env) (g : St → TypeKey → Except Err Value × St)
    (hg : OriginSound env g) : OriginSound env (getStep env g) := by
  intro st cls e st' h
  unfold getStep at h
  split at h
  next w hw => simp at h
  next hmiss =>
    split at h
    next w st1 heq => exact hg _ cls e st' h
    next m st1 heq =>
      injection h with h1 h2
      injection h1 with h1
      subst h1
      subst h2
      exact build_origin env g hg st cls (.typeError m) st1 heq
    next e1 st1 hne heq =>
      injection h with h1 h2
      injection h1 with h1
      subst h1
      subst h2
      exact build_origin env g hg st cls e1 st1 heq

theorem get_origin (env : Env) : ∀ fuel : Nat, OriginSound env (get env fuel) := by
  intro fuel
  induction fuel with
  | zero =>
      intro st t e st' h
      rw [get_zero] at h
      injection h with h1 h2
      injection h1 with h1
      subst h1
      trivial
  | succ fuel ih =>
      intro st t e st' h
      rw [get_succ] at h
      exact getStep_origin env (get env fuel) ih st t e st' h

/-- Any `TypeError` escaping a `get` call carries the wrapped message of
lines 59-62, naming the class that `get` was called on. -/
theorem get_typeError_msg (env : Env) (fuel : Nat) (st : St) (T : TypeKey)
    (m : TMsg) (st' : St)
    (h : get env fuel st T = (.error (.typeError m), st')) : m = .couldNotBuild T := by
  cases fuel with
  | zero =>
      rw [get_zero] at h
      simp at h
  | succ fuel =>
      rw [get_succ] at h
      unfold getStep at h
      split at h
      next w hw => simp at h
      next hmiss =>
        split at h
        next w st1 heq =>
          have hcached : dictLookup (set st1 T w).container T = some w := by
            rw [set_container]
            exact dictLookup_insert_self st1.container T w
          cases fuel with
          | zero =>
              rw [get_zero] at h
              simp at h
          | succ fuel2 =>
              rw [get_hit env fuel2 _ T w hcached] at h
              simp at h
        next m1 st1 heq =>
          injection h with h1 h2
          injection h1 with h1
          injection h1 with h1
          exact h1.symm
        next e1 st1 hne heq =>
          injection h with h1 h2
          injection h1 with h1
          subst h1
          exact absurd rfl (hne m)

end DependencyContainer

namespace DependencyContainer

/-! ### Claim theorems -/

/-- Claim C1 (evidence of the code bug): on the two-cycle A needs B, B
needs A, the cycle check of line 103 does fire (the ghost `cycles` list
records class 0), but the bare `raise CircularDependencyError` of line
104 fails to instantiate the error class — its `__init__` requires a
`message` argument — so the program raises `TypeError` there instead;
`get`'s `except TypeError` (line 59) catches it and re-raises the
wrapped `TypeError` naming A.  The caller therefore sees a `TypeError`,
never the `CircularDependencyError` promised by the claim and by the
code's own docstrings (lines 49 and 93). -/
theorem cycle_raise_degenerates_to_typeError :
    get env2 10 st0 0 =
      (.error (.typeError (.couldNotBuild 0)), ⟨[], [1, 0], 0, [], [0]⟩)
    ∧ (⟨[], [1, 0], 0, [], [0]⟩ : St).cycles ≠ []
    ∧ Err.typeError (.couldNotBuild 0) ≠ .circularDependencyError :=
  ⟨rfl, by decide, by decide⟩

/-- Claim C2 (evidence of the code bug): after `Get(A)` on the two-cycle
A needs B, B needs A fails (with the wrapped `TypeError` — the bare
raise of line 104 degenerates, see C1), the Build-In-Progress dictionary
still holds both A and B because the `del` of line 112 is skipped on the
error path; a later `Get(A)` after `Set(B, stub)` — a corrected,
overridden dependency graph — falsely fails again: the cycle check fires
on the stale marker (the ghost `cycles` list grows once more) and the
caller gets the wrapped `TypeError` naming A instead of a built A. -/
theorem build_stack_stale_after_failed_get :
    get env2 10 st0 0 =
      (.error (.typeError (.couldNotBuild 0)), ⟨[], [1, 0], 0, [], [0]⟩)
    ∧ ([1, 0] : List TypeKey) ≠ []
    ∧ get env2 10 (set ⟨[], [1, 0], 0, [], [0]⟩ 1 (.obj 99 1 [])) 0 =
        (.error (.typeError (.couldNotBuild 0)),
         ⟨[(1, .obj 99 1 [])], [1, 0], 0, [], [0, 0]⟩) :=
  ⟨rfl, by decide, rfl⟩

/-- Claim C3 (counterexample): a constructor's own `TypeError`, raised
during its legitimate execution after all its parameters resolved, is
masked: `Get` reports the wrapped could-not-build `TypeError` naming the
requested class, and the original payload `raw 7` is lost — contradicting
the claim that such failures propagate as-is and that the typed
resolution error occurs only for non-introspectable parameter types. -/
theorem ctor_typeError_masked :
    (envC 1).ctor = .raiseTypeError 7
    ∧ (envC 1).hints = [2]
    ∧ (get envC 10 st0 0).1 = .error (.typeError (.couldNotBuild 0))
    ∧ (Err.typeError (.couldNotBuild 0)) ≠ .typeError (.raw 7) :=
  ⟨rfl, rfl, rfl, by decide⟩

/-- Claim C3 (amended): `Get(T)`'s typed resolution failure is a
`TypeError` whose wrapped message names `T` itself, and it occurs exactly
when a `TypeError` was raised somewhere during the build — from a type
lacking usable construction metadata whose zero-argument call fails,
from a constructor raising `TypeError` during its own execution (masked
too), or from the cycle check itself, whose bare
`raise CircularDependencyError` (line 104) fails instantiation and
degenerates into a `TypeError` (the ghost `cycles` list records it); a
constructor failure that is not a `TypeError` propagates as-is,
unwrapped, with its original payload, and a `CircularDependencyError`
never reaches the caller. -/
theorem typeError_wrapped_others_unwrapped (env : Env) (fuel : Nat) (st : St)
    (T : TypeKey) (m : TMsg) (code : Nat) (st1 st2 : St) :
    (get env fuel st T = (.error (.typeError m), st1) →
      m = .couldNotBuild T ∧
        ((∃ c k, (env c).ctor = .raiseTypeError k) ∨ st1.cycles ≠ []))
    ∧ (get env fuel st T = (.error (.otherError code), st2) →
      ∃ c, (env c).ctor = .raiseOther code)
    ∧ (∀ e st3, get env fuel st T = (.error e, st3) →
      e ≠ .circularDependencyError) := by
  refine ⟨?_, ?_, ?_⟩
  · intro h
    exact ⟨get_typeError_msg env fuel st T m st1 h, get_origin env fuel st T _ st1 h⟩
  · intro h
    exact get_origin env fuel st T _ st2 h
  · intro e st3 h hcirc
    subst hcirc
    exact get_origin env fuel st T _ st3 h

theorem typeError_wrapped_others_unwrapped_witness :
    (TMsg.couldNotBuild 0 = TMsg.couldNotBuild 0
      ∧ ((∃ c k, (envC c).ctor = .raiseTypeError k)
          ∨ (⟨[(2, .obj 0 2 [])], [0], 1, [2], []⟩ : St).cycles ≠ []))
    ∧ (TMsg.couldNotBuild 0 = TMsg.couldNotBuild 0
      ∧ ((∃ c k, (env2 c).ctor = .raiseTypeError k)
          ∨ (⟨[], [1, 0], 0, [], [0]⟩ : St).cycles ≠ []))
    ∧ (∃ c, (envO c).ctor = .raiseOther 13)
    ∧ Err.typeError (.couldNotBuild 0) ≠ .circularDependencyError :=
  ⟨(typeError_wrapped_others_unwrapped envC 10 st0 0 (.couldNotBuild 0) 13
      ⟨[(2, .obj 0 2 [])], [0], 1, [2], []⟩ st0).1 rfl,
   (typeError_wrapped_others_unwrapped env2 10 st0 0 (.couldNotBuild 0) 13
      ⟨[], [1, 0], 0, [], [0]⟩ st0).1 rfl,
   (typeError_wrapped_others_unwrapped envO 2 st0 0 (.raw 0) 13 st0 st0).2.1 rfl,
   (typeError_wrapped_others_unwrapped env2 10 st0 0 (.raw 0) 13 st0 st0).2.2
     (.typeError (.couldNotBuild 0)) ⟨[], [1, 0], 0, [], [0]⟩ rfl⟩

/-- Claim C4: a `Get(T)` that returned an instance leaves `T` cached with
exactly that instance, so every later `Get(T)` without an intervening
`Set` returns the identical instance and leaves the state untouched; and
whenever `T` has a cache entry, `Get(T)` returns exactly that entry. -/
theorem get_idempotent (env : Env) (st st' : St) (T : TypeKey) (v w : Value)
    (fuel1 fuel2 : Nat) :
    (get env fuel1 st T = (.ok v, st') → get env (fuel2 + 1) st' T = (.ok v, st'))
    ∧ (dictLookup st.container T = some w → get env (fuel2 + 1) st T = (.ok w, st)) := by
  constructor
  · intro h
    exact get_hit env fuel2 st' T v (get_ok_cached env fuel1 st T v st' h)
  · intro h
    exact get_hit env fuel2 st T w h

theorem get_idempotent_witness :
    get envD 5 ⟨[(3, .obj 0 3 [])], [], 1, [3], []⟩ 3 =
      (.ok (.obj 0 3 []), ⟨[(3, .obj 0 3 [])], [], 1, [3], []⟩) :=
  (get_idempotent envD st0 ⟨[(3, .obj 0 3 [])], [], 1, [3], []⟩ 3 (.obj 0 3 [])
    (.obj 0 3 []) 3 4).1 rfl

/-- Claim C6: when `Get(T)` fails with any genuine error (the fuel
artefact excluded), no instance cache entry exists for `T` afterwards:
failed builds are never cached, at any level of the recursive chain. -/
theorem failed_get_adds_no_entry (env : Env) (fuel : Nat) (st : St) (T : TypeKey)
    (e : Err) (st' : St)
    (h : get env fuel st T = (.error e, st')) (hf : e ≠ .fuelOut) :
    dictLookup st'.container T = none := by
  cases fuel with
  | zero =>
      rw [get_zero] at h
      injection h with h1 h2
      injection h1 with h1
      exact absurd h1.symm hf
  | succ fuel =>
      rw [get_succ] at h
      unfold getStep at h
      split at h
      next w hw => simp at h
      next hmiss =>
        split at h
        next w st1 heq =>
          have hcached : dictLookup (set st1 T w).container T = some w := by
            rw [set_container]
            exact dictLookup_insert_self st1.container T w
          cases fuel with
          | zero =>
              rw [get_zero] at h
              injection h with h1 h2
              injection h1 with h1
              exact absurd h1.symm hf
          | succ fuel2 =>
              rw [get_hit env fuel2 _ T w hcached] at h
              simp at h
        next m st1 heq =>
          injection h with h1 h2
          subst h2
          exact build_err_uncached env (get env fuel) (get_inv env fuel) st T _ st1 heq hmiss
        next e1 st1 hne heq =>
          injection h with h1 h2
          subst h2
          exact build_err_uncached env (get env fuel) (get_inv env fuel) st T e1 st1 heq hmiss

theorem failed_get_adds_no_entry_witness :
    dictLookup (St.mk [] [1, 0] 0 [] [0]).container 0 = none :=
  failed_get_adds_no_entry env2 10 st0 0 (.typeError (.couldNotBuild 0))
    ⟨[], [1, 0], 0, [], [0]⟩ rfl (by decide)

/-- Claim C7: on the diamond A needs B and C, B and C each need D,
`Get(A)` constructs exactly one D (the construction log holds class 3
once), and the D embedded in B, the D embedded in C and the container's
cached D are the identical instance (same allocation id 0). -/
theorem diamond_single_instance :
    get envD 6 st0 0 =
      (.ok (.obj 3 0 [.obj 1 1 [.obj 0 3 []], .obj 2 2 [.obj 0 3 []]]),
       ⟨[(3, .obj 0 3 []), (1, .obj 1 1 [.obj 0 3 []]), (2, .obj 2 2 [.obj 0 3 []]),
         (0, .obj 3 0 [.obj 1 1 [.obj 0 3 []], .obj 2 2 [.obj 0 3 []]])],
        [], 4, [3, 1, 2, 0], []⟩)
    ∧ ([3, 1, 2, 0] : List TypeKey).count 3 = 1
    ∧ dictLookup ((get envD 6 st0 0).2).container 3 = some (.obj 0 3 []) :=
  ⟨rfl, by decide, rfl⟩

/-- Claim C9: every cache entry present before a `Get` call still maps to
the same instance after the call, whether it returned or failed: `Get`
only adds entries, it never replaces one; only `Set` overwrites. -/
theorem get_never_overwrites (env : Env) (fuel : Nat) (st : St)
    (T K : TypeKey) (r : Except Err Value) (st' : St) (v : Value)
    (h : get env fuel st T = (r, st'))
    (hK : dictLookup st.container K = some v) :
    dictLookup st'.container K = some v :=
  get_preserves env fuel st T r st' h K v hK

theorem get_never_overwrites_witness :
    dictLookup ((get envD 6 ⟨[(7, .obj 42 7 [])], [], 0, [], []⟩ 0).2).container 7 =
      some (.obj 42 7 []) :=
  get_never_overwrites envD 6 ⟨[(7, .obj 42 7 [])], [], 0, [], []⟩ 0 7
    (get envD 6 ⟨[(7, .obj 42 7 [])], [], 0, [], []⟩ 0).1
    (get envD 6 ⟨[(7, .obj 42 7 [])], [], 0, [], []⟩ 0).2
    (.obj 42 7 []) rfl rfl

end DependencyContainer

namespace DependencyContainer

/-! ### Leaf computation helper (shared) -/

/-- A type whose introspection yields no hints is constructed by a
zero-argument call on a cache miss, without touching the build stack. -/
theorem get_leaf_aux (env : Env) (st : St) (T : TypeKey) (fuel : Nat)
    (h1 : (env T).hints = []) (h2 : (env T).ctor = .ok)
    (h3 : dictLookup st.container T = none) :
    get env (fuel + 2) st T =
      (.ok (.obj st.fresh T []),
       ⟨dictInsert st.container T (.obj st.fresh T []), st.build_stack,
        st.fresh + 1, st.log ++ [T], st.cycles⟩) := by
  have e1 : fuel + 2 = (fuel + 1) + 1 := rfl
  rw [e1, get_succ]
  have hb : build env (get env (fuel + 1)) st T =
      (.ok (.obj st.fresh T []),
       { st with fresh := st.fresh + 1, log := st.log ++ [T] }) := by
    rw [build_leaf env (get env (fuel + 1)) st T h1]
    exact callCtor_ok env st T [] h2
  rw [getStep_miss_ok env (get env (fuel + 1)) st _ T _ h3 hb]
  exact get_hit env fuel _ T _
    (by rw [set_container]; exact dictLookup_insert_self _ T _)

/-- Claim C8: if introspection of `T` yields no type hints, a cache-miss
`Get(T)` constructs `T` directly with a zero-argument call: the
Build-In-Progress set is neither consulted (no membership hypothesis is
needed, so no cycle check happens) nor modified (it is unchanged in the
result), and no dependency is resolved (only `T` is appended to the
construction log). -/
theorem leaf_fast_path (env : Env) (st : St) (T : TypeKey) (fuel : Nat)
    (h1 : (env T).hints = []) (h2 : (env T).ctor = .ok)
    (h3 : dictLookup st.container T = none) :
    get env (fuel + 2) st T =
      (.ok (.obj st.fresh T []),
       ⟨dictInsert st.container T (.obj st.fresh T []), st.build_stack,
        st.fresh + 1, st.log ++ [T], st.cycles⟩) :=
  get_leaf_aux env st T fuel h1 h2 h3

theorem leaf_fast_path_witness :
    get envD 2 ⟨[], [3], 0, [], []⟩ 3 =
      (.ok (.obj 0 3 []), ⟨[(3, .obj 0 3 [])], [3], 1, [3], []⟩) :=
  leaf_fast_path envD ⟨[], [3], 0, [], []⟩ 3 0 rfl rfl rfl

/-- Claim C5: `Set(T, x)` is a total operation that unconditionally
inserts or overwrites the cache entry for `T`; afterwards `Get(T)`
returns `x` itself, and a dependent class `D` whose only constructor
parameter is `T` is built embedding exactly `x` — no fresh `T` is
auto-constructed (the log gains only `D`, the allocator ticks once). -/
theorem set_overrides_get (env : Env) (st : St) (T D : TypeKey) (x : Value) (fuel : Nat)
    (hD1 : (env D).hints = [T]) (hD2 : (env D).ctor = .ok)
    (hDm : dictLookup st.container D = none) (hDT : D ≠ T)
    (hDs : D ∉ st.build_stack) :
    dictLookup (set st T x).container T = some x
    ∧ get env (fuel + 1) (set st T x) T = (.ok x, set st T x)
    ∧ get env (fuel + 3) (set st T x) D =
        (.ok (.obj st.fresh D [x]),
         ⟨dictInsert (dictInsert st.container T x) D (.obj st.fresh D [x]),
          st.build_stack, st.fresh + 1, st.log ++ [D], st.cycles⟩) := by
  have hself : dictLookup (set st T x).container T = some x := by
    rw [set_container]
    exact dictLookup_insert_self st.container T x
  refine ⟨hself, get_hit env fuel (set st T x) T x hself, ?_⟩
  have e1 : fuel + 3 = (fuel + 2) + 1 := rfl
  rw [e1, get_succ]
  have hmiss : dictLookup (set st T x).container D = none := by
    rw [set_container, dictLookup_insert_ne st.container T D x hDT]
    exact hDm
  have hres : resolveAll (get env (fuel + 2))
      { set st T x with build_stack := D :: (set st T x).build_stack } [T] =
      (.ok [x], { set st T x with build_stack := D :: (set st T x).build_stack }) := by
    refine resolveAll_cons_ok _ _ _ _ T [] x [] ?_ (resolveAll_nil _ _)
    exact get_hit env (fuel + 1) _ T x hself
  have hb : build env (get env (fuel + 2)) (set st T x) D =
      (.ok (.obj st.fresh D [x]),
       ⟨dictInsert st.container T x, st.build_stack, st.fresh + 1, st.log ++ [D],
        st.cycles⟩) := by
    rw [build_step_ok env (get env (fuel + 2)) (set st T x) _ D T [] [x] hD1 hDs hres]
    show callCtor env
      ⟨dictInsert st.container T x, delKey (D :: st.build_stack) D, st.fresh, st.log,
       st.cycles⟩ D [x] = _
    rw [delKey_cons_self st.build_stack D]
    exact callCtor_ok env
      ⟨dictInsert st.container T x, st.build_stack, st.fresh, st.log, st.cycles⟩
      D [x] hD2
  rw [getStep_miss_ok env (get env (fuel + 2)) (set st T x) _ D _ hmiss hb]
  exact get_hit env (fuel + 1) _ D _
    (by rw [set_container]; exact dictLookup_insert_self _ D _)

theorem set_overrides_get_witness :
    dictLookup (set st0 3 (.obj 99 5 [])).container 3 = some (.obj 99 5 [])
    ∧ get envD 1 (set st0 3 (.obj 99 5 [])) 3 = (.ok (.obj 99 5 []), set st0 3 (.obj 99 5 []))
    ∧ get envD 3 (set st0 3 (.obj 99 5 [])) 1 =
        (.ok (.obj 0 1 [.obj 99 5 []]),
         ⟨[(3, .obj 99 5 []), (1, .obj 0 1 [.obj 99 5 []])], [], 1, [1], []⟩) :=
  set_overrides_get envD st0 3 1 (.obj 99 5 []) 0 rfl rfl rfl (by decide) (by decide)

/-- Claim C10: a constructor parameter whose type yields no hints on
introspection (as built-ins like `int` or `list` do) is silently
resolved by calling that type with zero arguments; the result is cached
as that type's singleton and embedded in the dependent — no error. -/
theorem untyped_param_zero_arg (env : Env) (st : St) (D T : TypeKey) (fuel : Nat)
    (hD1 : (env D).hints = [T]) (hD2 : (env D).ctor = .ok)
    (hT1 : (env T).hints = []) (hT2 : (env T).ctor = .ok)
    (hDm : dictLookup st.container D = none) (hTm : dictLookup st.container T = none)
    (hDs : D ∉ st.build_stack) :
    get env (fuel + 4) st D =
      (.ok (.obj (st.fresh + 1) D [.obj st.fresh T []]),
       ⟨dictInsert (dictInsert st.container T (.obj st.fresh T [])) D
          (.obj (st.fresh + 1) D [.obj st.fresh T []]),
        st.build_stack, st.fresh + 2, st.log ++ [T, D], st.cycles⟩) := by
  have e1 : fuel + 4 = (fuel + 3) + 1 := rfl
  rw [e1, get_succ]
  have hinner : get env (fuel + 3) { st with build_stack := D :: st.build_stack } T =
      (.ok (.obj st.fresh T []),
       ⟨dictInsert st.container T (.obj st.fresh T []), D :: st.build_stack,
        st.fresh + 1, st.log ++ [T], st.cycles⟩) :=
    get_leaf_aux env { st with build_stack := D :: st.build_stack } T (fuel + 1) hT1 hT2 hTm
  have hres : resolveAll (get env (fuel + 3)) { st with build_stack := D :: st.build_stack } [T] =
      (.ok [.obj st.fresh T []],
       ⟨dictInsert st.container T (.obj st.fresh T []), D :: st.build_stack,
        st.fresh + 1, st.log ++ [T], st.cycles⟩) :=
    resolveAll_cons_ok _ _ _ _ T [] _ [] hinner (resolveAll_nil _ _)
  have hb : build env (get env (fuel + 3)) st D =
      (.ok (.obj (st.fresh + 1) D [.obj st.fresh T []]),
       ⟨dictInsert st.container T (.obj st.fresh T []), st.build_stack,
        st.fresh + 2, st.log ++ [T, D], st.cycles⟩) := by
    rw [build_step_ok env (get env (fuel + 3)) st _ D T [] [.obj st.fresh T []] hD1 hDs hres]
    show callCtor env
      ⟨dictInsert st.container T (.obj st.fresh T []), delKey (D :: st.build_stack) D,
       st.fresh + 1, st.log ++ [T], st.cycles⟩ D [.obj st.fresh T []] = _
    rw [delKey_cons_self st.build_stack D]
    rw [callCtor_ok env
      ⟨dictInsert st.container T (.obj st.fresh T []), st.build_stack,
       st.fresh + 1, st.log ++ [T], st.cycles⟩ D [.obj st.fresh T []] hD2]
    simp [List.append_assoc]
  rw [getStep_miss_ok env (get env (fuel + 3)) st _ D _ hDm hb]
  exact get_hit env (fuel + 2) _ D _
    (by rw [set_container]; exact dictLookup_insert_self _ D _)

theorem untyped_param_zero_arg_witness :
    get envL 4 st0 0 =
      (.ok (.obj 1 0 [.obj 0 1 []]),
       ⟨[(1, .obj 0 1 []), (0, .obj 1 0 [.obj 0 1 []])], [], 2, [1, 0], []⟩) :=
  untyped_param_zero_arg envL st0 0 1 0 rfl rfl rfl rfl rfl rfl (by decide)

end DependencyContainer

